import Mathlib

/-!
Verification of the tool-augmented RAG chatbot core
(`backend/search_tools.py` and `backend/ai_generator.py`).

The Python code is shallowly embedded: each Python function becomes a Lean
function over explicit data; mutable object state (`last_sources`, the
`ToolManager` registry, the chat transcript) is threaded explicitly; a raised
Python exception is an `Except.error`; Python `None` is `Option.none`; Python
truthiness on optional strings / ints is made explicit.
The external collaborators that are not part of the verified code
(the vector store, the hosted model API, `json.loads`) are universally
quantified function parameters, so every theorem holds for all behaviors of
those collaborators.
-/

/-- Python truthiness of an optional string: `None` and `""` are falsy. -/
def pyTruthyOptStr : Option String → Bool
  | none => false
  | some s => !(s == "")

/-- Python truthiness of an optional integer: `None` and `0` are falsy. -/
def pyTruthyOptInt : Option Int → Bool
  | none => false
  | some n => !(n == 0)

/-- Chunk metadata as produced by the vector store and consumed by
`CourseSearchTool._format_results` (`meta.get("course_title")`,
`meta.get("lesson_number")`, `meta.get("lesson_link")`); a missing key is
`none`. -/
structure ChunkMeta where
  course_title : Option String
  lesson_number : Option Int
  lesson_link : Option String
deriving Repr, DecidableEq

/-- Modelled from the spec: the Retriever boundary's search result
`{documents: [text], metadata: [{course_title, lesson_number?, lesson_link?}],
error?}` (`vector_store.SearchResults`, which is outside the verified
sources). -/
structure SearchResults where
  documents : List String
  metadata : List ChunkMeta
  error : Option String
deriving Repr, DecidableEq

/-- Modelled from the spec: `SearchResults.is_empty` holds when the search
returned no documents ("Empty result set"). -/
def SearchResults.is_empty (r : SearchResults) : Bool :=
  r.documents.isEmpty

/-- A citation entry (`source_obj` in `_format_results`): `{"text": ...}` plus
an optional `"url"` key added only when the lesson link is truthy. -/
structure Source where
  text : String
  url : Option String
deriving Repr, DecidableEq

/-- The context header `"[<course_title>" + (" - Lesson <n>")? + "]"` built for
each chunk in `_format_results`. -/
def mkHeader (m : ChunkMeta) : String :=
  let ct := m.course_title.getD "unknown"
  (match m.lesson_number with
   | some n => "[" ++ ct ++ " - Lesson " ++ toString n
   | none => "[" ++ ct) ++ "]"

/-- The citation text `course_title` + (" - Lesson <n>")? built for each chunk
in `_format_results`. -/
def mkSourceText (m : ChunkMeta) : String :=
  let ct := m.course_title.getD "unknown"
  match m.lesson_number with
  | some n => ct ++ " - Lesson " ++ toString n
  | none => ct

/-- The deduplication key `(course_title, lesson_num)` used by
`_format_results` (`source_key`). -/
def sourceKey (m : ChunkMeta) : String × Option Int :=
  (m.course_title.getD "unknown", m.lesson_number)

/-- The citation object built for a chunk: `{"text": source_text}`, with a
`"url"` key only when `lesson_link` is Python-truthy. -/
def mkSource (m : ChunkMeta) : Source :=
  { text := mkSourceText m
    url := if pyTruthyOptStr m.lesson_link then m.lesson_link else none }

/-- One formatted chunk block: header, newline, document text. -/
def chunkBlock (c : String × ChunkMeta) : String :=
  mkHeader c.2 ++ "\n" ++ c.1

/-- Python's `sep.join(parts)`. -/
def joinWith (sep : String) : List String → String
  | [] => ""
  | [x] => x
  | x :: y :: rest => x ++ sep ++ joinWith sep (y :: rest)

/-- The accumulation loop of `CourseSearchTool._format_results`: walks
`zip(results.documents, results.metadata)` carrying the `formatted` list, the
`sources` list and the `seen_sources` set (a list here; only membership is
used). -/
def formatLoop :
    List (String × ChunkMeta) → List String → List Source →
    List (String × Option Int) → List String × List Source
  | [], fmt, srcs, _ => (fmt, srcs)
  | c :: rest, fmt, srcs, seen =>
    if sourceKey c.2 ∈ seen then
      formatLoop rest (fmt ++ [chunkBlock c]) srcs seen
    else
      formatLoop rest (fmt ++ [chunkBlock c]) (srcs ++ [mkSource c.2])
        (sourceKey c.2 :: seen)

/-- `CourseSearchTool._format_results`: returns the joined text and the new
`last_sources` value it stores. -/
def formatResults (results : SearchResults) : String × List Source :=
  let (fmt, srcs) := formatLoop (results.documents.zip results.metadata) [] [] []
  (joinWith "\n\n" fmt, srcs)

/-- The mutable state of a `CourseSearchTool` object: its `last_sources`
field. -/
structure CourseSearchToolState where
  last_sources : List Source
deriving Repr, DecidableEq

/-- `CourseSearchTool.execute`, with the vector store's `search` method passed
in as a function (the store is an external collaborator).  Returns the result
string together with the tool state after the call. -/
def CourseSearchTool.execute
    (search : String → Option String → Option Int → SearchResults)
    (st : CourseSearchToolState)
    (query : String) (course_name : Option String) (lesson_number : Option Int) :
    String × CourseSearchToolState :=
  let results := search query course_name lesson_number
  if pyTruthyOptStr results.error then
    (results.error.getD "", st)
  else if results.is_empty then
    let filter_info :=
      (if pyTruthyOptStr course_name then
        " in course '" ++ course_name.getD "" ++ "'" else "")
      ++ (if pyTruthyOptInt lesson_number then
        " in lesson " ++ toString (lesson_number.getD 0) else "")
    ("No relevant content found" ++ filter_info ++ ".", st)
  else
    let (text, srcs) := formatResults results
    (text, { last_sources := srcs })

/-- Specification-side description of "first occurrence wins" deduplication:
keep each chunk whose key has not appeared earlier in the list. -/
def firstByKey : List (String × ChunkMeta) → List (String × ChunkMeta)
  | [] => []
  | c :: rest => c :: firstByKey (rest.filter fun c2 => sourceKey c2.2 ≠ sourceKey c.2)
termination_by l => l.length
decreasing_by
  simp only [List.length_cons]
  exact Nat.lt_succ_of_le (List.length_filter_le _ _)

/-- Substring test used to state that a message "mentions" a filter. -/
def strMentions (s pat : String) : Bool :=
  (List.range (s.toList.length + 1)).any fun i =>
    pat.toList.isPrefixOf (s.toList.drop i)

/-- One entry of the parsed `lessons_json` array, read via
`lesson.get("lesson_number", "N/A")` and `lesson.get("lesson_title",
"Untitled")`; a missing key is `none`. -/
structure LessonEntry where
  lesson_number : Option Int
  lesson_title : Option String
deriving Repr, DecidableEq

/-- The catalog metadata dict `results["metadatas"][0]` read by
`CourseOutlineTool.execute` via `metadata.get(...)`; each field is `none` when
the key is missing. -/
structure CatalogMetadata where
  title : Option String
  course_link : Option String
  instructor : Option String
  lessons_json : Option String
deriving Repr, DecidableEq

/-- The per-lesson output line `"  Lesson <n>: <title>"`; a missing lesson
number renders as `"N/A"`, a missing title as `"Untitled"`. -/
def renderLessonRow (l : LessonEntry) : String :=
  "  Lesson " ++ (match l.lesson_number with
    | some n => toString n
    | none => "N/A") ++ ": " ++ l.lesson_title.getD "Untitled"

/-- `lessons = json.loads(lessons_json) if lessons_json else []` with
`lessons_json = metadata.get("lessons_json", "[]")`; `parse` models
`json.loads` (an `Except.error` is a raised decode exception). -/
def parsedLessons (parse : String → Except String (List LessonEntry))
    (md : CatalogMetadata) : Except String (List LessonEntry) :=
  let lessons_json := md.lessons_json.getD "[]"
  if lessons_json == "" then Except.ok [] else parse lessons_json

/-- `CourseOutlineTool.execute`.  The vector store is an external
collaborator, passed in as two functions: `resolve` models
`store._resolve_course_name` (best fuzzy match or `None`) and `catalogGet`
models `store.course_catalog.get(ids=[...])` together with the
falsy-results checks (`none` covers missing results / metadatas). -/
def CourseOutlineTool.execute
    (resolve : String → Option String)
    (catalogGet : String → Option CatalogMetadata)
    (parse : String → Except String (List LessonEntry))
    (course_title : String) : String :=
  let resolved_title := resolve course_title
  if !(pyTruthyOptStr resolved_title) then
    "No course found matching '" ++ course_title ++ "'"
  else
    let rt := resolved_title.getD ""
    match catalogGet rt with
    | none => "Error retrieving metadata for course: " ++ rt
    | some metadata =>
      let title := metadata.title.getD "Unknown"
      let course_link := metadata.course_link.getD ""
      let instructor := metadata.instructor.getD "Unknown"
      match parsedLessons parse metadata with
      | Except.error e => "Error retrieving course outline: " ++ e
      | Except.ok lessons =>
        let outline_parts := ["Course: " ++ title, "Instructor: " ++ instructor]
        let outline_parts := if !(course_link == "") then
            outline_parts ++ ["Course Link: " ++ course_link]
          else outline_parts
        let outline_parts := outline_parts
          ++ ["\nTotal Lessons: " ++ toString lessons.length]
        let outline_parts := outline_parts ++ ["\nLessons:"]
        let outline_parts := outline_parts ++ lessons.map renderLessonRow
        joinWith "\n" outline_parts

/-- A Python value carried in a tool-call keyword-argument payload (as decoded
from the JSON arguments object). -/
inductive PyVal
  | str (s : String)
  | int (n : Int)
  | pyNone
deriving Repr, DecidableEq

/-- A keyword-argument dictionary (`**kwargs`): keys are distinct in any dict
Python builds, only lookup and key-set membership are used. -/
abbrev Kwargs := List (String × PyVal)

/-- A registered tool as the `ToolManager` sees it: the `"name"` field of its
declared definition (`None` when the key is absent) and its `execute` method.
Calling a Python method with `**kwargs` can raise (argument-binding
`TypeError`, or an exception from the body): that is the `Except.error`
case. -/
structure ToolImpl where
  declaredName : Option String
  run : Kwargs → Except String String

/-- The `ToolManager`'s `self.tools` dict (insertion-ordered association
list). -/
structure ToolManager where
  tools : List (String × ToolImpl)

/-- Python `dict` assignment `d[k] = v`: replaces in place when the key
exists, otherwise appends. -/
def dictAssign (d : List (String × ToolImpl)) (k : String) (v : ToolImpl) :
    List (String × ToolImpl) :=
  if d.any (fun p => p.1 == k) then
    d.map fun p => if p.1 == k then (k, v) else p
  else d ++ [(k, v)]

/-- `ToolManager.register_tool`: raises `ValueError` (here `Except.error`)
when the declared name is falsy, otherwise assigns
`self.tools[tool_name] = tool`. -/
def ToolManager.register_tool (tm : ToolManager) (tool : ToolImpl) :
    Except String ToolManager :=
  if !(pyTruthyOptStr tool.declaredName) then
    Except.error "Tool must have a 'name' in its definition"
  else
    Except.ok { tools := dictAssign tm.tools (tool.declaredName.getD "") tool }

/-- `ToolManager.execute_tool`: `"Tool '<name>' not found"` for an
unregistered name, otherwise a direct delegation
`self.tools[tool_name].execute(**kwargs)` — whatever that call raises
propagates. -/
def ToolManager.execute_tool (tm : ToolManager) (tool_name : String)
    (kwargs : Kwargs) : Except String String :=
  match tm.tools.lookup tool_name with
  | none => Except.ok ("Tool '" ++ tool_name ++ "' not found")
  | some tool => tool.run kwargs

/-- CPython keyword-argument binding against the signature
`execute(self, query, course_name=None, lesson_number=None)`: an unexpected
keyword or a missing `query` raises `TypeError` before the body runs. -/
def bindSearchArgs (kwargs : Kwargs) :
    Except String (PyVal × Option PyVal × Option PyVal) :=
  if kwargs.any (fun p => !(["query", "course_name", "lesson_number"].contains p.1)) then
    Except.error "execute() got an unexpected keyword argument"
  else
    match kwargs.lookup "query" with
    | none => Except.error "execute() missing 1 required positional argument: 'query'"
    | some q => Except.ok (q, kwargs.lookup "course_name", kwargs.lookup "lesson_number")

/-- Coercion of a payload value to the string the tool's input schema declares
for `query` / `course_name` (the schema makes these `string`, so in every
schema-conforming payload this is the identity on the carried string). -/
def PyVal.asStr : PyVal → String
  | .str s => s
  | .int n => toString n
  | .pyNone => "None"

/-- An explicitly passed `None` binds like the `None` default. -/
def pyOptStrArg : Option PyVal → Option String
  | none => none
  | some .pyNone => none
  | some v => some v.asStr

/-- Lesson-number payload as the schema's `integer`; an explicitly passed
`None` binds like the default, a non-integer (never produced by a
schema-conforming payload) is treated as absent. -/
def pyOptIntArg : Option PyVal → Option Int
  | some (.int n) => some n
  | _ => none

/-- `CourseSearchTool` as registered in the `ToolManager`: declared name
`"search_course_content"`, and an `execute` method whose keyword binding
follows `bindSearchArgs` and whose body is `CourseSearchTool.execute` (the
`last_sources` state snapshot is taken at registration; it does not affect
the returned string). -/
def courseSearchToolImpl
    (search : String → Option String → Option Int → SearchResults)
    (st : CourseSearchToolState) : ToolImpl :=
  { declaredName := some "search_course_content"
    run := fun kwargs => do
      let (q, cn, ln) ← bindSearchArgs kwargs
      Except.ok (CourseSearchTool.execute search st q.asStr
        (pyOptStrArg cn) (pyOptIntArg ln)).1 }

/-- One requested tool invocation in a model response
(`tc.id`, `tc.type`, `tc.function.name`, `tc.function.arguments`). -/
structure ToolCallRec where
  id : String
  ty : String
  fname : String
  arguments : String
deriving Repr, DecidableEq

/-- The message of a model response (`response.choices[0].message`): `content`
may be `null`, `tool_calls` may be absent ( `[]` here; Python treats `None`
and `[]` alike, by truthiness). -/
structure ModelMessage where
  content : Option String
  tool_calls : List ToolCallRec
deriving Repr, DecidableEq

/-- One entry of the chat transcript the engine builds. -/
inductive ChatMsg
  | system (content : String)
  | user (content : String)
  | assistant (content : String) (tool_calls : List ToolCallRec)
  | toolResult (tool_call_id : String) (content : String)
deriving Repr, DecidableEq

/-- Everything observable about one engine invocation: the value returned
(`none` models Python `None` content), one flag per model API call issued —
in order, `true` when the call's parameters carried the tool catalog — the
ids of the tool calls whose execution was attempted, and the final
transcript. -/
structure EngineResult where
  result : Option String
  apiCallsWithTools : List Bool
  attemptedToolCalls : List String
  messages : List ChatMsg
deriving Repr, DecidableEq

/-- The per-round tool loop of `_handle_tool_execution`: for each requested
call, `json.loads` the arguments and run `tool_manager.execute_tool` (both
modelled by `exec`; an `Except.error` is the raised exception), appending a
tool-result message on success and an `"Error: ..."` tool-result message on
the first failure, which stops the walk and reports the failure. -/
def execToolCalls (exec : ToolCallRec → Except String String) :
    List ToolCallRec → List ChatMsg → List String →
    List ChatMsg × List String × Bool
  | [], msgs, attempted => (msgs, attempted, false)
  | tc :: rest, msgs, attempted =>
    match exec tc with
    | Except.ok tool_result =>
      execToolCalls exec rest (msgs ++ [ChatMsg.toolResult tc.id tool_result])
        (attempted ++ [tc.id])
    | Except.error e =>
      (msgs ++ [ChatMsg.toolResult tc.id ("Error: " ++ e)],
        attempted ++ [tc.id], true)

/-- The round loop of `AIGenerator._handle_tool_execution`.  `client k` is the
message returned by the `k`-th chat-completion call of this engine invocation
(the hosted model is an external collaborator; since calls are issued one at a
time, indexing them covers every possible model behavior).  `hasTools` is the
truthiness of the `tools` parameter of the original call (follow-up calls
reuse `base_params.get("tools")`; both final calls rebuild the parameters from
`self.base_params`, which never carries tools).  `roundsLeft` counts the
remaining iterations of `for round_number in range(1, MAX_TOOL_ROUNDS + 1)`;
the `round_number >= MAX_TOOL_ROUNDS` check is `roundsLeft = 1`. -/
def handleLoop (client : Nat → ModelMessage)
    (exec : ToolCallRec → Except String String) (hasTools : Bool) :
    ModelMessage → Nat → Nat → List ChatMsg → List Bool → List String →
    EngineResult
  | resp, _, 0, msgs, apiTrace, attempted =>
    { result := resp.content, apiCallsWithTools := apiTrace
      attemptedToolCalls := attempted, messages := msgs }
  | resp, k, r + 1, msgs, apiTrace, attempted =>
    if resp.tool_calls.isEmpty then
      { result := resp.content, apiCallsWithTools := apiTrace
        attemptedToolCalls := attempted, messages := msgs }
    else
      let msgs1 := msgs ++ [ChatMsg.assistant (resp.content.getD "") resp.tool_calls]
      match execToolCalls exec resp.tool_calls msgs1 attempted with
      | (msgs2, attempted2, true) =>
        { result := (client k).content
          apiCallsWithTools := apiTrace ++ [false]
          attemptedToolCalls := attempted2, messages := msgs2 }
      | (msgs2, attempted2, false) =>
        if r = 0 then
          { result := (client k).content
            apiCallsWithTools := apiTrace ++ [false]
            attemptedToolCalls := attempted2, messages := msgs2 }
        else
          handleLoop client exec hasTools (client k) (k + 1) r msgs2
            (apiTrace ++ [hasTools]) attempted2

/-- `AIGenerator.generate_response`: build the system + user messages, issue
the first model call (with the tool catalog iff `tools` is truthy), and either
return its content directly or, when it carries tool calls and a tool manager
was provided, enter `_handle_tool_execution` with round limit `maxRounds`
(`config.MAX_TOOL_ROUNDS`). -/
def generate_response (client : Nat → ModelMessage)
    (exec : ToolCallRec → Except String String)
    (hasTools hasToolManager : Bool) (maxRounds : Nat)
    (system_content query : String) : EngineResult :=
  let messages := [ChatMsg.system system_content, ChatMsg.user query]
  let response := client 0
  if !response.tool_calls.isEmpty && hasToolManager then
    handleLoop client exec hasTools response 1 maxRounds messages [hasTools] []
  else
    { result := response.content, apiCallsWithTools := [hasTools]
      attemptedToolCalls := [], messages := messages }

lemma handleLoop_shape (client : Nat → ModelMessage)
    (exec : ToolCallRec → Except String String) (ht : Bool) :
    ∀ (r : Nat) (resp : ModelMessage) (k : Nat) (msgs : List ChatMsg)
      (trace : List Bool) (attempted : List String),
      ∃ m tail,
        (handleLoop client exec ht resp k r msgs trace attempted).apiCallsWithTools
            = trace ++ (List.replicate m ht ++ tail)
          ∧ (tail = [] ∨ tail = [false]) ∧ m + tail.length ≤ r
          ∧ (1 ≤ r → m + 1 ≤ r) := by
  intro r
  induction r with
  | zero =>
    intro resp k msgs trace attempted
    refine ⟨0, [], by simp [handleLoop], Or.inl rfl, ?_, ?_⟩
    · simp
    · intro h
      omega
  | succ n ih =>
    intro resp k msgs trace attempted
    by_cases hemp : resp.tool_calls.isEmpty
    · refine ⟨0, [], by simp [handleLoop, hemp], Or.inl rfl, ?_, ?_⟩
      · simp
      · intro _
        omega
    · rcases hE : execToolCalls exec resp.tool_calls
        (msgs ++ [ChatMsg.assistant (resp.content.getD "") resp.tool_calls])
        attempted with ⟨msgs2, attempted2, failed⟩
      cases failed with
      | true =>
        refine ⟨0, [false], ?_, Or.inr rfl, ?_, ?_⟩
        · simp [handleLoop, hemp, hE]
        · simp only [List.length_singleton]
          omega
        · intro _
          omega
      | false =>
        by_cases hn : n = 0
        · subst hn
          refine ⟨0, [false], ?_, Or.inr rfl, ?_, ?_⟩
          · simp [handleLoop, hemp, hE]
          · simp only [List.length_singleton]
            omega
          · intro _
            omega
        · obtain ⟨m, tail, heq, hcases, hle, hlast⟩ :=
            ih (client k) (k + 1) msgs2 (trace ++ [ht]) attempted2
          refine ⟨m + 1, tail, ?_, hcases, by omega, ?_⟩
          · have hstep :
                handleLoop client exec ht resp k (n + 1) msgs trace attempted
                  = handleLoop client exec ht (client k) (k + 1) n msgs2
                      (trace ++ [ht]) attempted2 := by
              simp [handleLoop, hemp, hE, hn]
            rw [hstep, heq]
            simp [List.replicate_succ]
          · intro _
            have := hlast (by omega)
            omega

/-- C1: with tools enabled and a round limit `R ≥ 1`, an engine call makes
between 1 and `R+1` model API calls in total (the first call plus the calls
of `_handle_tool_execution`), and every call issued beyond the first `R`
carries no tool catalog. -/
theorem claim_C1 (client : Nat → ModelMessage)
    (exec : ToolCallRec → Except String String) (R : Nat) (hR : 1 ≤ R)
    (sys q : String) :
    1 ≤ (generate_response client exec true true R sys q).apiCallsWithTools.length ∧
    (generate_response client exec true true R sys q).apiCallsWithTools.length ≤ R + 1 ∧
    (generate_response client exec true true R sys q).apiCallsWithTools.drop R
      = List.replicate
          ((generate_response client exec true true R sys q).apiCallsWithTools.length - R)
          false := by
  by_cases h0 : (client 0).tool_calls.isEmpty
  · have hres :
        (generate_response client exec true true R sys q).apiCallsWithTools = [true] := by
      simp [generate_response, h0]
    rw [hres]
    refine ⟨by simp, ?_, ?_⟩
    · simp only [List.length_singleton]
      omega
    · have h1 : ([true] : List Bool).drop R = [] :=
        List.drop_eq_nil_of_le (by simp only [List.length_singleton]; omega)
    -- drop and replicate both collapse to the empty list
      have h2 : ([true] : List Bool).length - R = 0 := by
        simp only [List.length_singleton]
        omega
      rw [h1, h2]
      rfl
  · have hres :
        (generate_response client exec true true R sys q).apiCallsWithTools
          = (handleLoop client exec true (client 0) 1 R
              [ChatMsg.system sys, ChatMsg.user q] [true] []).apiCallsWithTools := by
      simp [generate_response, h0]
    obtain ⟨m, tail, heq, hcases, hle, hlast⟩ :=
      handleLoop_shape client exec true R (client 0) 1
        [ChatMsg.system sys, ChatMsg.user q] [true] []
    have hm1 : m + 1 ≤ R := hlast hR
    have heq2 :
        (generate_response client exec true true R sys q).apiCallsWithTools
          = List.replicate (m + 1) true ++ tail := by
      rw [hres, heq]
      simp [List.replicate_succ]
    rw [heq2]
    have hlen : (List.replicate (m + 1) true ++ tail).length = m + 1 + tail.length := by
      simp
    refine ⟨?_, ?_, ?_⟩
    · rw [hlen]
      omega
    · rw [hlen]
      omega
    · rcases hcases with htail | htail
      · subst htail
        have hd : (List.replicate (m + 1) true ++ ([] : List Bool)).drop R = [] :=
          List.drop_eq_nil_of_le
            (by simp only [List.length_append, List.length_replicate, List.length_nil]; omega)
        have hz : (List.replicate (m + 1) true ++ ([] : List Bool)).length - R = 0 := by
          simp only [List.length_append, List.length_replicate, List.length_nil]
          omega
        rw [hd, hz]
        rfl
      · subst htail
        by_cases hd : R = m + 1
        · have hdrop1 :
              (List.replicate (m + 1) true ++ [false]).drop R = [false] := by
            rw [hd]
            exact List.drop_left' (by simp)
          have hz : (List.replicate (m + 1) true ++ [false]).length - R = 1 := by
            simp only [List.length_append, List.length_replicate, List.length_singleton]
            omega
          rw [hdrop1, hz]
          rfl
        · have hge : m + 2 ≤ R := by
            rcases hle with _
            simp only [List.length_singleton] at hle
            omega
          have hdropn : (List.replicate (m + 1) true ++ [false]).drop R = [] :=
            List.drop_eq_nil_of_le
              (by
                simp only [List.length_append, List.length_replicate, List.length_singleton]
                omega)
          have hz : (List.replicate (m + 1) true ++ [false]).length - R = 0 := by
            simp only [List.length_append, List.length_replicate, List.length_singleton]
            omega
          rw [hdropn, hz]
          rfl

/-- Model behavior used to witness C1: always requests one more tool call. -/
def c1client : Nat → ModelMessage :=
  fun _ => { content := some "text"
             tool_calls := [⟨"id1", "function", "search_course_content", "\x7b\x7d"⟩] }

/-- Tool behavior used to witness C1: every execution succeeds. -/
def c1exec : ToolCallRec → Except String String := fun _ => Except.ok "result"

/-- Witness for C1 at a concrete model, tool behavior and round limit 2: the
engine makes 3 calls, the last one without tools. -/
theorem claim_C1_witness :
    (generate_response c1client c1exec true true 2 "s" "u").apiCallsWithTools
        = [true, true, false] ∧
    1 ≤ (generate_response c1client c1exec true true 2 "s" "u").apiCallsWithTools.length ∧
    (generate_response c1client c1exec true true 2 "s" "u").apiCallsWithTools.length ≤ 3 ∧
    (generate_response c1client c1exec true true 2 "s" "u").apiCallsWithTools.drop 2
      = List.replicate
          ((generate_response c1client c1exec true true 2 "s" "u").apiCallsWithTools.length - 2)
          false := by
  have h := claim_C1 c1client c1exec 2 (by omega) "s" "u"
  exact ⟨by decide, h.1, h.2.1, h.2.2⟩

/-- C5: when the first model response carries no tool requests, or no tool
manager was provided, the engine makes exactly one model call and returns
that response's content unchanged. -/
theorem claim_C5 (client : Nat → ModelMessage)
    (exec : ToolCallRec → Except String String) (hasTools hasTM : Bool)
    (R : Nat) (sys q : String)
    (h : (client 0).tool_calls.isEmpty = true ∨ hasTM = false) :
    (generate_response client exec hasTools hasTM R sys q).result
        = (client 0).content ∧
    (generate_response client exec hasTools hasTM R sys q).apiCallsWithTools.length
        = 1 := by
  have hcond : (!(client 0).tool_calls.isEmpty && hasTM) = false := by
    rcases h with h | h <;> simp [h]
  constructor <;> simp [generate_response, hcond]

/-- Model behavior used to witness C5: answers directly, no tool request. -/
def c5client : Nat → ModelMessage := fun _ => { content := some "hello", tool_calls := [] }

/-- Witness for C5: a direct answer passes through with a single model
call. -/
theorem claim_C5_witness :
    (generate_response c5client c1exec true true 2 "s" "u").result = some "hello" ∧
    (generate_response c5client c1exec true true 2 "s" "u").apiCallsWithTools.length = 1 :=
  claim_C5 c5client c1exec true true 2 "s" "u" (Or.inl rfl)

/-- C10: with `tool_manager = None` the first response's `content` field is
returned as-is — even if the response requests tools — after exactly one
model call, with no tool execution attempted; the returned value may be
`None`. -/
theorem claim_C10 (client : Nat → ModelMessage)
    (exec : ToolCallRec → Except String String) (hasTools : Bool)
    (R : Nat) (sys q : String) :
    (generate_response client exec hasTools false R sys q).result
        = (client 0).content ∧
    (generate_response client exec hasTools false R sys q).apiCallsWithTools.length
        = 1 ∧
    (generate_response client exec hasTools false R sys q).attemptedToolCalls = [] := by
  refine ⟨?_, ?_, ?_⟩ <;> simp [generate_response]

lemma execToolCalls_fail (exec : ToolCallRec → Except String String) :
    ∀ (good : List ToolCallRec), (∀ g ∈ good, ∃ s, exec g = Except.ok s) →
    ∀ (tc : ToolCallRec) (rest : List ToolCallRec) (e : String),
      exec tc = Except.error e →
    ∀ (msgs : List ChatMsg) (attempted : List String),
      ∃ goodMsgs : List ChatMsg, goodMsgs.length = good.length ∧
        execToolCalls exec (good ++ tc :: rest) msgs attempted =
          (msgs ++ goodMsgs ++ [ChatMsg.toolResult tc.id ("Error: " ++ e)],
            attempted ++ good.map (fun g => g.id) ++ [tc.id], true) := by
  intro good
  induction good with
  | nil =>
    intro _ tc rest e he msgs attempted
    refine ⟨[], rfl, ?_⟩
    simp [execToolCalls, he]
  | cons g gs ih =>
    intro hg tc rest e he msgs attempted
    obtain ⟨s, hs⟩ := hg g (by simp)
    obtain ⟨goodMsgs, hlen, heq⟩ :=
      ih (fun x hx => hg x (by simp [hx])) tc rest e he
        (msgs ++ [ChatMsg.toolResult g.id s]) (attempted ++ [g.id])
    refine ⟨ChatMsg.toolResult g.id s :: goodMsgs, by simp [hlen], ?_⟩
    have hstep :
        execToolCalls exec ((g :: gs) ++ tc :: rest) msgs attempted =
          execToolCalls exec (gs ++ tc :: rest)
            (msgs ++ [ChatMsg.toolResult g.id s]) (attempted ++ [g.id]) := by
      simp [execToolCalls, hs]
    rw [hstep, heq]
    simp

/-- C3: in any round whose requested tool invocations succeed up to some call
`tc` whose parse/execution raises, the engine appends an error tool-result
message for `tc`, issues exactly one further model call without tool access,
returns that call's content, and attempts none of the remaining tool calls
and no further rounds. -/
theorem claim_C3 (client : Nat → ModelMessage)
    (exec : ToolCallRec → Except String String) (resp : ModelMessage)
    (k r : Nat) (msgs : List ChatMsg) (trace : List Bool)
    (attempted : List String) (good : List ToolCallRec) (tc : ToolCallRec)
    (rest : List ToolCallRec) (e : String)
    (hr : 1 ≤ r)
    (hcalls : resp.tool_calls = good ++ tc :: rest)
    (hgood : ∀ g ∈ good, ∃ s, exec g = Except.ok s)
    (he : exec tc = Except.error e) :
    (handleLoop client exec true resp k r msgs trace attempted).result
        = (client k).content ∧
    (handleLoop client exec true resp k r msgs trace attempted).apiCallsWithTools
        = trace ++ [false] ∧
    (handleLoop client exec true resp k r msgs trace attempted).attemptedToolCalls
        = attempted ++ good.map (fun g => g.id) ++ [tc.id] ∧
    ∃ goodMsgs : List ChatMsg, goodMsgs.length = good.length ∧
      (handleLoop client exec true resp k r msgs trace attempted).messages
        = msgs ++ [ChatMsg.assistant (resp.content.getD "") resp.tool_calls]
            ++ goodMsgs ++ [ChatMsg.toolResult tc.id ("Error: " ++ e)] := by
  obtain ⟨r', rfl⟩ : ∃ r', r = r' + 1 := ⟨r - 1, by omega⟩
  obtain ⟨cont, tcs⟩ := resp
  replace hcalls : tcs = good ++ tc :: rest := hcalls
  subst hcalls
  obtain ⟨goodMsgs, hlen, heq⟩ :=
    execToolCalls_fail exec good hgood tc rest e he
      (msgs ++ [ChatMsg.assistant (cont.getD "") (good ++ tc :: rest)]) attempted
  have hemp : (good ++ tc :: rest).isEmpty = false := by
    rcases good with _ | ⟨a, b⟩ <;> simp
  refine ⟨?_, ?_, ?_, ⟨goodMsgs, hlen, ?_⟩⟩ <;>
    simp [handleLoop, hemp, heq]

/-- Tool behavior used to witness C3: `"g"` succeeds, anything else raises. -/
def c3exec : ToolCallRec → Except String String :=
  fun t => if t.id = "g" then Except.ok "res" else Except.error "boom"

/-- Model behavior used to witness C3. -/
def c3client : Nat → ModelMessage :=
  fun k => if k = 0 then { content := some "first", tool_calls := [] }
           else { content := some "explained", tool_calls := [] }

/-- A round whose second requested call fails, used to witness C3. -/
def c3resp : ModelMessage :=
  { content := some "hi"
    tool_calls := [⟨"g", "function", "get_course_outline", "\x7b\x7d"⟩,
                   ⟨"b", "function", "search_course_content", "not json"⟩,
                   ⟨"z", "function", "search_course_content", "\x7b\x7d"⟩] }

/-- Witness for C3: the failing second call short-circuits the round — one
extra no-tools model call, the third requested call never attempted. -/
theorem claim_C3_witness :
    (handleLoop c3client c3exec true c3resp 1 2 [] [true] []).result
        = some "explained" ∧
    (handleLoop c3client c3exec true c3resp 1 2 [] [true] []).apiCallsWithTools
        = [true, false] ∧
    (handleLoop c3client c3exec true c3resp 1 2 [] [true] []).attemptedToolCalls
        = ["g", "b"] := by
  have h := claim_C3 c3client c3exec c3resp 1 2 [] [true] []
    [⟨"g", "function", "get_course_outline", "\x7b\x7d"⟩]
    ⟨"b", "function", "search_course_content", "not json"⟩
    [⟨"z", "function", "search_course_content", "\x7b\x7d"⟩] "boom"
    (by omega) rfl
    (by
      intro g hg
      simp only [List.mem_singleton] at hg
      subst hg
      exact ⟨"res", rfl⟩)
    rfl
  exact ⟨h.1.trans rfl, h.2.1, h.2.2.1.trans (by decide)⟩

/-- C9: a search that errors or comes back empty leaves `last_sources`
exactly as it was before the call. -/
theorem claim_C9 (search : String → Option String → Option Int → SearchResults)
    (st : CourseSearchToolState) (q : String) (cn : Option String)
    (ln : Option Int)
    (h : pyTruthyOptStr (search q cn ln).error = true ∨
      (search q cn ln).is_empty = true) :
    (CourseSearchTool.execute search st q cn ln).2 = st := by
  rcases h with h | h
  · simp [CourseSearchTool.execute, h]
  · by_cases herr : pyTruthyOptStr (search q cn ln).error
    · simp [CourseSearchTool.execute, herr]
    · simp [CourseSearchTool.execute, herr, h]

/-- A store whose search always reports an error, used to witness C9. -/
def c9search : String → Option String → Option Int → SearchResults :=
  fun _ _ _ => { documents := [], metadata := [], error := some "Search error" }

/-- Witness for C9: citations from an earlier successful search survive a
failed search. -/
theorem claim_C9_witness :
    (CourseSearchTool.execute c9search
        { last_sources := [{ text := "T - Lesson 1", url := none }] } "q" none none).2
      = { last_sources := [{ text := "T - Lesson 1", url := none }] } :=
  claim_C9 c9search _ "q" none none (Or.inl rfl)

/-- Structural companion of `firstByKey`: walk the list skipping chunks whose
key was already seen. -/
def firstByKeyAux : List (String × ChunkMeta) → List (String × Option Int) →
    List (String × ChunkMeta)
  | [], _ => []
  | c :: rest, seen =>
    if sourceKey c.2 ∈ seen then firstByKeyAux rest seen
    else c :: firstByKeyAux rest (sourceKey c.2 :: seen)

lemma filter_keyNotMem_cons (k0 : String × Option Int)
    (seen : List (String × Option Int)) (l : List (String × ChunkMeta)) :
    (l.filter fun c => decide (sourceKey c.2 ∉ k0 :: seen)) =
      ((l.filter fun c => decide (sourceKey c.2 ∉ seen)).filter
        fun c => decide (sourceKey c.2 ≠ k0)) := by
  rw [List.filter_filter]
  apply List.filter_congr
  intro x _
  by_cases h1 : sourceKey x.2 = k0 <;> by_cases h2 : sourceKey x.2 ∈ seen <;>
    simp [h1, h2, List.mem_cons]

lemma firstByKeyAux_eq_filter :
    ∀ (l : List (String × ChunkMeta)) (seen : List (String × Option Int)),
      firstByKeyAux l seen =
        firstByKey (l.filter fun c => decide (sourceKey c.2 ∉ seen)) := by
  intro l
  induction l with
  | nil => intro seen; simp [firstByKeyAux, firstByKey]
  | cons c rest ih =>
    intro seen
    by_cases h : sourceKey c.2 ∈ seen
    · rw [show (c :: rest).filter (fun c => decide (sourceKey c.2 ∉ seen))
            = rest.filter (fun c => decide (sourceKey c.2 ∉ seen)) by
          simp [List.filter_cons, h]]
      simp [firstByKeyAux, h, ih]
    · rw [show (c :: rest).filter (fun c => decide (sourceKey c.2 ∉ seen))
            = c :: rest.filter (fun c => decide (sourceKey c.2 ∉ seen)) by
          simp [List.filter_cons, h]]
      simp only [firstByKeyAux, if_neg h, firstByKey]
      rw [ih (sourceKey c.2 :: seen), filter_keyNotMem_cons]

lemma firstByKeyAux_nil_eq (l : List (String × ChunkMeta)) :
    firstByKeyAux l [] = firstByKey l := by
  rw [firstByKeyAux_eq_filter l []]
  congr 1
  simp

lemma formatLoop_sources :
    ∀ (l : List (String × ChunkMeta)) (fmt : List String) (srcs : List Source)
      (seen : List (String × Option Int)),
      (formatLoop l fmt srcs seen).2 =
        srcs ++ (firstByKeyAux l seen).map (fun c => mkSource c.2) := by
  intro l
  induction l with
  | nil => intro fmt srcs seen; simp [formatLoop, firstByKeyAux]
  | cons c rest ih =>
    intro fmt srcs seen
    by_cases h : sourceKey c.2 ∈ seen
    · simp [formatLoop, firstByKeyAux, h, ih]
    · simp [formatLoop, firstByKeyAux, h, ih]

lemma formatResults_sources (results : SearchResults) :
    (formatResults results).2 =
      (firstByKey (results.documents.zip results.metadata)).map
        (fun c => mkSource c.2) := by
  have h := formatLoop_sources (results.documents.zip results.metadata) [] [] []
  rw [firstByKeyAux_nil_eq] at h
  simpa [formatResults] using h

lemma card_insert_erase {α : Type} [DecidableEq α] (s : Finset α) (a : α) :
    (insert a s).card = (s.erase a).card + 1 := by
  by_cases h : a ∈ s
  · rw [Finset.insert_eq_self.mpr h]
    exact (Finset.card_erase_add_one h).symm
  · rw [Finset.card_insert_of_not_mem h, Finset.erase_eq_of_not_mem h]

lemma firstByKeyAux_length :
    ∀ (l : List (String × ChunkMeta)) (seen : List (String × Option Int)),
      (firstByKeyAux l seen).length =
        (((l.map fun c => sourceKey c.2).toFinset) \ seen.toFinset).card := by
  intro l
  induction l with
  | nil => intro seen; simp [firstByKeyAux]
  | cons c rest ih =>
    intro seen
    by_cases h : sourceKey c.2 ∈ seen
    · have hmem : sourceKey c.2 ∈ seen.toFinset := List.mem_toFinset.mpr h
      simp only [firstByKeyAux, if_pos h, ih, List.map_cons, List.toFinset_cons]
      rw [Finset.insert_sdiff_of_mem _ hmem]
    · have hmem : sourceKey c.2 ∉ seen.toFinset := fun hc =>
        h (List.mem_toFinset.mp hc)
      simp only [firstByKeyAux, if_neg h, List.length_cons, ih, List.map_cons,
        List.toFinset_cons]
      rw [Finset.sdiff_insert, Finset.insert_sdiff_of_not_mem _ hmem,
        card_insert_erase]

lemma firstByKey_length (l : List (String × ChunkMeta)) :
    (firstByKey l).length = ((l.map fun c => sourceKey c.2).toFinset).card := by
  have h := firstByKeyAux_length l []
  rw [firstByKeyAux_nil_eq] at h
  simpa using h

lemma firstByKeyAux_sublist :
    ∀ (l : List (String × ChunkMeta)) (seen : List (String × Option Int)),
      (firstByKeyAux l seen).Sublist l := by
  intro l
  induction l with
  | nil => intro seen; simp [firstByKeyAux]
  | cons c rest ih =>
    intro seen
    by_cases h : sourceKey c.2 ∈ seen
    · simp only [firstByKeyAux, if_pos h]
      exact (ih seen).trans (List.sublist_cons_self c rest)
    · simp only [firstByKeyAux, if_neg h]
      exact (ih (sourceKey c.2 :: seen)).cons₂ c

lemma firstByKey_sublist (l : List (String × ChunkMeta)) :
    (firstByKey l).Sublist l := by
  rw [← firstByKeyAux_nil_eq]
  exact firstByKeyAux_sublist l []

/-- C2: a successful search stores, as the tool's new `last_sources`, exactly
the first-occurrence deduplication of the returned chunks — one citation per
distinct `(course_title, lesson_number)` pair, each derived from an actual
chunk of the result set (so its text is `"<course_title>"` or
`"<course_title> - Lesson <n>"` by `mkSource`) — and the stored value does not
depend on the previously stored citations (the assignment replaces them). -/
theorem claim_C2 (search : String → Option String → Option Int → SearchResults)
    (st : CourseSearchToolState) (q : String) (cn : Option String)
    (ln : Option Int)
    (hErr : pyTruthyOptStr (search q cn ln).error = false)
    (hNE : (search q cn ln).is_empty = false) :
    (CourseSearchTool.execute search st q cn ln).2.last_sources
        = (firstByKey ((search q cn ln).documents.zip (search q cn ln).metadata)).map
            (fun c => mkSource c.2) ∧
    (CourseSearchTool.execute search st q cn ln).2.last_sources.length
        = (((search q cn ln).documents.zip (search q cn ln).metadata).map
            (fun c => sourceKey c.2)).toFinset.card ∧
    (∀ s ∈ (CourseSearchTool.execute search st q cn ln).2.last_sources,
      ∃ c ∈ (search q cn ln).documents.zip (search q cn ln).metadata,
        s = mkSource c.2) ∧
    (CourseSearchTool.execute search st q cn ln).2
        = (CourseSearchTool.execute search { last_sources := [] } q cn ln).2 := by
  have hstate : ∀ st0 : CourseSearchToolState,
      (CourseSearchTool.execute search st0 q cn ln).2
        = { last_sources := (formatResults (search q cn ln)).2 } := by
    intro st0
    simp [CourseSearchTool.execute, hErr, hNE, formatResults]
  have h1 : (CourseSearchTool.execute search st q cn ln).2.last_sources
      = (firstByKey ((search q cn ln).documents.zip (search q cn ln).metadata)).map
          (fun c => mkSource c.2) := by
    rw [hstate st]
    exact formatResults_sources (search q cn ln)
  refine ⟨h1, ?_, ?_, ?_⟩
  · rw [h1, List.length_map, firstByKey_length]
  · intro s hs
    rw [h1] at hs
    obtain ⟨c, hc, rfl⟩ := List.mem_map.mp hs
    exact ⟨c, (firstByKey_sublist _).subset hc, rfl⟩
  · rw [hstate st, hstate { last_sources := [] }]

/-- A store returning three chunks over two distinct
`(course_title, lesson_number)` pairs, used to witness C2. -/
def c2search : String → Option String → Option Int → SearchResults :=
  fun _ _ _ =>
    { documents := ["d1", "d2", "d3"]
      metadata := [{ course_title := some "T", lesson_number := some 1,
                     lesson_link := some "u1" },
                   { course_title := some "T", lesson_number := some 2,
                     lesson_link := none },
                   { course_title := some "T", lesson_number := some 1,
                     lesson_link := some "u1" }]
      error := none }

/-- Witness for C2: 3 chunks over 2 distinct pairs yield exactly the 2
first-occurrence citations, replacing the previously stored one. -/
theorem claim_C2_witness :
    (CourseSearchTool.execute c2search
        { last_sources := [{ text := "old", url := none }] } "q" none none).2.last_sources
      = [{ text := "T - Lesson 1", url := some "u1" },
         { text := "T - Lesson 2", url := none }] ∧
    (CourseSearchTool.execute c2search
        { last_sources := [{ text := "old", url := none }] } "q" none none).2.last_sources.length
      = 2 := by
  have h := claim_C2 c2search { last_sources := [{ text := "old", url := none }] }
    "q" none none rfl rfl
  refine ⟨?_, h.2.1.trans (by decide)⟩
  decide

lemma strToList_append (a b : String) : (a ++ b).toList = a.toList ++ b.toList :=
  String.data_append a b

lemma isPrefixOf_append (a b : List Char) : a.isPrefixOf (a ++ b) = true := by
  induction a with
  | nil => simp [List.isPrefixOf]
  | cons x t ih => simp [List.isPrefixOf, ih]

lemma strMentions_of_toList (s pat : String) (a b : List Char)
    (h : s.toList = a ++ pat.toList ++ b) : strMentions s pat = true := by
  unfold strMentions
  rw [List.any_eq_true]
  refine ⟨a.length, List.mem_range.mpr ?_, ?_⟩
  · rw [h]
    simp only [List.length_append]
    omega
  · rw [h, List.append_assoc, List.drop_left]
    exact isPrefixOf_append pat.toList b

/-- C6 (amended): on an empty result set the returned message is
`"No relevant content found"` followed by the applied-filter hints — but the
hints follow Python truthiness, not presence: the course is named whenever
`course_name` is non-`None` and non-empty, the lesson whenever
`lesson_number` is non-`None` and nonzero, and in particular
`lesson_number = 0` produces no lesson mention at all. -/
theorem claim_C6_amended
    (search : String → Option String → Option Int → SearchResults)
    (st : CourseSearchToolState) (q : String) (cn : Option String)
    (ln : Option Int)
    (hErr : pyTruthyOptStr (search q cn ln).error = false)
    (hEmp : (search q cn ln).is_empty = true) :
    (CourseSearchTool.execute search st q cn ln).1
        = "No relevant content found"
          ++ ((if pyTruthyOptStr cn then " in course '" ++ cn.getD "" ++ "'" else "")
            ++ (if pyTruthyOptInt ln then " in lesson " ++ toString (ln.getD 0) else ""))
          ++ "." ∧
    (pyTruthyOptStr cn = true →
      strMentions (CourseSearchTool.execute search st q cn ln).1
        (" in course '" ++ cn.getD "" ++ "'") = true) ∧
    (pyTruthyOptInt ln = true →
      strMentions (CourseSearchTool.execute search st q cn ln).1
        (" in lesson " ++ toString (ln.getD 0)) = true) ∧
    (cn = none → ln = some 0 →
      (CourseSearchTool.execute search st q cn ln).1
        = "No relevant content found.") := by
  have hout : (CourseSearchTool.execute search st q cn ln).1
      = "No relevant content found"
        ++ ((if pyTruthyOptStr cn then " in course '" ++ cn.getD "" ++ "'" else "")
          ++ (if pyTruthyOptInt ln then " in lesson " ++ toString (ln.getD 0) else ""))
        ++ "." := by
    simp [CourseSearchTool.execute, hErr, hEmp]
  refine ⟨hout, ?_, ?_, ?_⟩
  · intro hcn
    apply strMentions_of_toList _ _ ("No relevant content found".toList)
      ((if pyTruthyOptInt ln then " in lesson " ++ toString (ln.getD 0) else "").toList
        ++ ".".toList)
    rw [hout, hcn]
    simp [strToList_append, List.append_assoc]
  · intro hln
    apply strMentions_of_toList _ _
      ("No relevant content found".toList
        ++ (if pyTruthyOptStr cn then " in course '" ++ cn.getD "" ++ "'" else "").toList)
      (".".toList)
    rw [hout, hln]
    simp [strToList_append, List.append_assoc]
  · intro hcn hln
    subst hcn
    subst hln
    rw [hout]
    decide

/-- A store whose search always returns an empty result set, used for C6. -/
def c6search : String → Option String → Option Int → SearchResults :=
  fun _ _ _ => { documents := [], metadata := [], error := none }

/-- Counterexample to C6 as stated: with `lesson_number = 0` the empty-result
message mentions neither the lesson filter nor `0` — Python's `if
lesson_number:` treats `0` as falsy. -/
theorem claim_C6_counterexample :
    (CourseSearchTool.execute c6search { last_sources := [] } "q" none (some 0)).1
      = "No relevant content found." ∧
    strMentions
      (CourseSearchTool.execute c6search { last_sources := [] } "q" none (some 0)).1
      "lesson" = false ∧
    strMentions
      (CourseSearchTool.execute c6search { last_sources := [] } "q" none (some 0)).1
      "0" = false := by
  decide

/-- Witness for the amended C6 at truthy filters: both hints are present. -/
theorem claim_C6_amended_witness :
    (CourseSearchTool.execute c6search { last_sources := [] } "q" (some "MCP")
        (some 2)).1
      = "No relevant content found in course 'MCP' in lesson 2." ∧
    strMentions
      (CourseSearchTool.execute c6search { last_sources := [] } "q" (some "MCP")
        (some 2)).1 " in course 'MCP'" = true ∧
    strMentions
      (CourseSearchTool.execute c6search { last_sources := [] } "q" (some "MCP")
        (some 2)).1 " in lesson 2" = true := by
  have h := claim_C6_amended c6search { last_sources := [] } "q" (some "MCP")
    (some 2) rfl rfl
  exact ⟨h.1.trans (by decide), h.2.1 rfl, h.2.2.1 rfl⟩

lemma strMentions_of_split (s pat a b : String) (h : s = a ++ pat ++ b) :
    strMentions s pat = true := by
  apply strMentions_of_toList _ _ a.toList b.toList
  rw [h, strToList_append, strToList_append]

lemma joinWith_split (sep : String) :
    ∀ (l : List String) (x : String), x ∈ l →
      ∃ a b : String, joinWith sep l = a ++ x ++ b := by
  intro l
  induction l with
  | nil =>
    intro x hx
    simp at hx
  | cons y rest ih =>
    intro x hx
    rcases List.mem_cons.mp hx with rfl | hx2
    · cases rest with
      | nil =>
        refine ⟨"", "", ?_⟩
        rw [joinWith, String.empty_append, String.append_empty]
      | cons z zs =>
        refine ⟨"", sep ++ joinWith sep (z :: zs), ?_⟩
        rw [joinWith, String.empty_append, String.append_assoc]
    · cases rest with
      | nil =>
        simp at hx2
      | cons z zs =>
        obtain ⟨a, b, hab⟩ := ih x hx2
        refine ⟨y ++ sep ++ a, b, ?_⟩
        rw [joinWith, hab, ← String.append_assoc, ← String.append_assoc]

lemma joinWith_mentions (sep : String) (l : List String) (x : String)
    (hx : x ∈ l) : strMentions (joinWith sep l) x = true := by
  obtain ⟨a, b, hab⟩ := joinWith_split sep l x hx
  exact strMentions_of_split _ _ a b hab

/-- C7 (amended): for a successfully retrieved catalog record the outline text
is the course title line, the instructor line, the link line when a link is
present, a total-lessons line whose count is the number of lessons in the
record, and one `"  Lesson <n>: <title>"` line per lesson — in the order the
lessons appear in the stored record (the code does not sort; the order is
ascending exactly when the record stores the lessons in ascending order). -/
theorem claim_C7_amended (resolve : String → Option String)
    (catalogGet : String → Option CatalogMetadata)
    (parse : String → Except String (List LessonEntry))
    (ct rt : String) (md : CatalogMetadata) (lessons : List LessonEntry)
    (hres : resolve ct = some rt) (hrt : rt ≠ "")
    (hget : catalogGet rt = some md)
    (hles : parsedLessons parse md = Except.ok lessons) :
    CourseOutlineTool.execute resolve catalogGet parse ct
      = joinWith "\n"
          (["Course: " ++ md.title.getD "Unknown",
            "Instructor: " ++ md.instructor.getD "Unknown"]
            ++ (if !(md.course_link.getD "" == "") then
                  ["Course Link: " ++ md.course_link.getD ""] else [])
            ++ ["\nTotal Lessons: " ++ toString lessons.length]
            ++ ["\nLessons:"]
            ++ lessons.map renderLessonRow) ∧
    strMentions (CourseOutlineTool.execute resolve catalogGet parse ct)
      ("Course: " ++ md.title.getD "Unknown") = true ∧
    strMentions (CourseOutlineTool.execute resolve catalogGet parse ct)
      ("Instructor: " ++ md.instructor.getD "Unknown") = true ∧
    (md.course_link.getD "" ≠ "" →
      strMentions (CourseOutlineTool.execute resolve catalogGet parse ct)
        ("Course Link: " ++ md.course_link.getD "") = true) ∧
    strMentions (CourseOutlineTool.execute resolve catalogGet parse ct)
      ("\nTotal Lessons: " ++ toString lessons.length) = true ∧
    ∀ le ∈ lessons,
      strMentions (CourseOutlineTool.execute resolve catalogGet parse ct)
        (renderLessonRow le) = true := by
  have hout : CourseOutlineTool.execute resolve catalogGet parse ct
      = joinWith "\n"
          (["Course: " ++ md.title.getD "Unknown",
            "Instructor: " ++ md.instructor.getD "Unknown"]
            ++ (if !(md.course_link.getD "" == "") then
                  ["Course Link: " ++ md.course_link.getD ""] else [])
            ++ ["\nTotal Lessons: " ++ toString lessons.length]
            ++ ["\nLessons:"]
            ++ lessons.map renderLessonRow) := by
    simp only [CourseOutlineTool.execute, hres, hget, hles, pyTruthyOptStr,
      Option.getD_some]
    rw [if_neg]
    · by_cases hl : md.course_link.getD "" = "" <;> simp [hl]
    · simp [hrt]
  refine ⟨hout, ?_, ?_, ?_, ?_, ?_⟩
  · rw [hout]
    apply joinWith_mentions
    simp
  · rw [hout]
    apply joinWith_mentions
    simp
  · intro hlink
    rw [hout]
    apply joinWith_mentions
    simp [hlink]
  · rw [hout]
    apply joinWith_mentions
    simp
  · intro le hle
    rw [hout]
    apply joinWith_mentions
    simp only [List.mem_append, List.mem_map]
    exact Or.inr ⟨le, hle, rfl⟩

/-- Resolution always succeeding with title `"T"`, for the C7 examples. -/
def c7resolve : String → Option String := fun _ => some "T"

/-- A catalog record without a course link, for the C7 counterexample. -/
def c7get : String → Option CatalogMetadata :=
  fun _ => some { title := some "T", course_link := none, instructor := some "I",
                  lessons_json := some "L" }

/-- A record whose `lessons_json` stores lesson 2 before lesson 1, for the C7
counterexample. -/
def c7parse : String → Except String (List LessonEntry) :=
  fun _ => Except.ok [{ lesson_number := some 2, lesson_title := some "B" },
                      { lesson_number := some 1, lesson_title := some "A" }]

/-- Counterexample to C7 as stated: the lesson lines come out in the record's
stored order (`Lesson 2` before `Lesson 1`), not in ascending lesson-number
order — the code never sorts. -/
theorem claim_C7_counterexample :
    CourseOutlineTool.execute c7resolve c7get c7parse "MCP"
      = "Course: T\nInstructor: I\n\nTotal Lessons: 2\n\nLessons:\n  Lesson 2: B\n  Lesson 1: A" ∧
    strMentions (CourseOutlineTool.execute c7resolve c7get c7parse "MCP")
      "  Lesson 2: B\n  Lesson 1: A" = true ∧
    strMentions (CourseOutlineTool.execute c7resolve c7get c7parse "MCP")
      "  Lesson 1: A\n  Lesson 2: B" = false := by
  decide

/-- A full catalog record with link and three ascending lessons, for the C7
witness (the spec's `"Total Lessons: 3"` scenario). -/
def c7wmd : CatalogMetadata :=
  { title := some "MCP", course_link := some "http://x", instructor := some "I",
    lessons_json := some "L" }

/-- Catalog lookup returning `c7wmd`. -/
def c7wget : String → Option CatalogMetadata := fun _ => some c7wmd

/-- Three lessons stored in ascending order. -/
def c7wlessons : List LessonEntry :=
  [{ lesson_number := some 1, lesson_title := some "A" },
   { lesson_number := some 2, lesson_title := some "B" },
   { lesson_number := some 3, lesson_title := some "C" }]

/-- `json.loads` returning `c7wlessons`. -/
def c7wparse : String → Except String (List LessonEntry) :=
  fun _ => Except.ok c7wlessons

/-- Witness for the amended C7: full outline with link, count 3 and the three
lesson lines in record order. -/
theorem claim_C7_amended_witness :
    CourseOutlineTool.execute c7resolve c7wget c7wparse "MCP"
      = "Course: MCP\nInstructor: I\nCourse Link: http://x\n\nTotal Lessons: 3\n\nLessons:\n  Lesson 1: A\n  Lesson 2: B\n  Lesson 3: C" ∧
    strMentions (CourseOutlineTool.execute c7resolve c7wget c7wparse "MCP")
      "\nTotal Lessons: 3" = true ∧
    strMentions (CourseOutlineTool.execute c7resolve c7wget c7wparse "MCP")
      "  Lesson 2: B" = true := by
  have h := claim_C7_amended c7resolve c7wget c7wparse "MCP" "T" c7wmd c7wlessons
    rfl (by decide) rfl rfl
  refine ⟨h.1.trans (by decide), h.2.2.2.2.1, ?_⟩
  exact h.2.2.2.2.2 { lesson_number := some 2, lesson_title := some "B" } (by decide)

lemma lookup_assign_mapped (k : String) (v : ToolImpl) :
    ∀ d : List (String × ToolImpl), d.any (fun p => p.1 == k) = true →
      (d.map fun p => if p.1 == k then (k, v) else p).lookup k = some v := by
  intro d
  induction d with
  | nil =>
    intro h
    simp at h
  | cons q rest ih =>
    obtain ⟨qk, qv⟩ := q
    intro h
    by_cases hq : qk = k
    · subst hq
      have hmap : ((qk, qv) :: rest).map (fun p => if p.1 == qk then (qk, v) else p)
          = (qk, v) :: rest.map (fun p => if p.1 == qk then (qk, v) else p) := by
        simp
      rw [hmap]
      simp [List.lookup]
    · have h2 : rest.any (fun p => p.1 == k) = true := by
        simp only [List.any_cons, Bool.or_eq_true] at h
        rcases h with h | h
        · exact absurd (by simpa using h) hq
        · exact h
      have hmap : ((qk, qv) :: rest).map (fun p => if p.1 == k then (k, v) else p)
          = (qk, qv) :: rest.map (fun p => if p.1 == k then (k, v) else p) := by
        simp [hq]
      rw [hmap]
      have hkq : (k == qk) = false := by
        simp
        exact fun hk => hq hk.symm
      simp only [List.lookup, hkq]
      exact ih h2

lemma lookup_append_new (k : String) (v : ToolImpl) :
    ∀ d : List (String × ToolImpl), d.any (fun p => p.1 == k) = false →
      (d ++ [(k, v)]).lookup k = some v := by
  intro d
  induction d with
  | nil =>
    intro _
    simp [List.lookup]
  | cons q rest ih =>
    obtain ⟨qk, qv⟩ := q
    intro h
    simp only [List.any_cons, Bool.or_eq_false_iff] at h
    obtain ⟨h1, h2⟩ := h
    have hkq : (k == qk) = false := by
      simp at h1 ⊢
      exact fun hk => h1 hk.symm
    rw [List.cons_append]
    simp only [List.lookup, hkq]
    exact ih h2

lemma dictAssign_lookup (d : List (String × ToolImpl)) (k : String)
    (v : ToolImpl) : (dictAssign d k v).lookup k = some v := by
  unfold dictAssign
  by_cases h : d.any (fun p => p.1 == k)
  · rw [if_pos h]
    exact lookup_assign_mapped k v d h
  · rw [if_neg h]
    apply lookup_append_new
    cases hb : d.any (fun p => p.1 == k) with
    | false => rfl
    | true => exact absurd hb h

/-- C8 (amended): `register_tool` raises `ValueError` exactly when the
declared name is missing or empty; a duplicate name is not rejected — the
dict assignment succeeds and the new tool replaces the existing registration
under that name. -/
theorem claim_C8_amended (tm : ToolManager) (tool : ToolImpl) :
    (pyTruthyOptStr tool.declaredName = false →
      tm.register_tool tool
        = Except.error "Tool must have a 'name' in its definition") ∧
    (pyTruthyOptStr tool.declaredName = true →
      tm.register_tool tool
          = Except.ok { tools := dictAssign tm.tools (tool.declaredName.getD "") tool } ∧
      (dictAssign tm.tools (tool.declaredName.getD "") tool).lookup
          (tool.declaredName.getD "") = some tool) := by
  constructor
  · intro h
    simp [ToolManager.register_tool, h]
  · intro h
    refine ⟨by simp [ToolManager.register_tool, h], dictAssign_lookup _ _ _⟩

/-- First tool registered under the name `"t"`. -/
def c8t1 : ToolImpl := { declaredName := some "t", run := fun _ => Except.ok "one" }

/-- Second, different tool declaring the same name `"t"`. -/
def c8t2 : ToolImpl := { declaredName := some "t", run := fun _ => Except.ok "two" }

/-- Counterexample to C8 as stated: registering a second tool under an
already-registered name does not fail — it succeeds and the old registration
is replaced (invoking `"t"` now runs the second tool). -/
theorem claim_C8_counterexample :
    ToolManager.register_tool { tools := [] } c8t1
        = Except.ok { tools := [("t", c8t1)] } ∧
    ToolManager.register_tool { tools := [("t", c8t1)] } c8t2
        = Except.ok { tools := [("t", c8t2)] } ∧
    ToolManager.execute_tool { tools := [("t", c8t2)] } "t" []
        = Except.ok "two" := by
  refine ⟨rfl, rfl, rfl⟩

/-- Witness for the amended C8: an empty declared name is rejected, and a
truthy one is stored and retrievable. -/
theorem claim_C8_amended_witness :
    ToolManager.register_tool { tools := [] }
        { declaredName := some "", run := fun _ => Except.ok "x" }
      = Except.error "Tool must have a 'name' in its definition" ∧
    (dictAssign [] "t" c8t1).lookup "t" = some c8t1 := by
  have h1 := (claim_C8_amended { tools := [] }
    { declaredName := some "", run := fun _ => Except.ok "x" }).1 rfl
  have h2 := (claim_C8_amended { tools := [] } c8t1).2 rfl
  exact ⟨h1, h2.2⟩

/-- C4 (amended): `execute_tool` returns the in-band `"Tool '<name>' not
found"` string for any unregistered name, but for a registered name it is a
bare delegation `self.tools[tool_name].execute(**kwargs)` — whatever that
call raises (for example the `TypeError` from binding an unexpected keyword
argument) propagates out of `execute_tool`; only the engine's round loop
catches it. -/
theorem claim_C4_amended (tm : ToolManager) (name : String) (kwargs : Kwargs) :
    (tm.tools.lookup name = none →
      tm.execute_tool name kwargs
        = Except.ok ("Tool '" ++ name ++ "' not found")) ∧
    (∀ t : ToolImpl, tm.tools.lookup name = some t →
      tm.execute_tool name kwargs = t.run kwargs) := by
  constructor
  · intro h
    simp [ToolManager.execute_tool, h]
  · intro t h
    simp [ToolManager.execute_tool, h]

/-- A `ToolManager` holding the (modelled) `CourseSearchTool`, as
`rag_system` builds it, used for the C4 counterexample. -/
def c4tm : ToolManager :=
  { tools := [("search_course_content",
      courseSearchToolImpl c6search { last_sources := [] })] }

/-- Counterexample to C4 as stated: invoking the registered search tool with
an argument set that does not match its `execute` signature raises (Python:
`TypeError`) instead of returning a string — `execute_tool` does not catch
it. -/
theorem claim_C4_counterexample :
    c4tm.execute_tool "search_course_content" [("bogus", PyVal.int 1)]
      = Except.error "execute() got an unexpected keyword argument" := by
  rfl

/-- Witness for the amended C4: an unregistered name yields the in-band
not-found string, and a registered name delegates to the tool. -/
theorem claim_C4_amended_witness :
    ToolManager.execute_tool { tools := [] } "nonexistent_tool" []
      = Except.ok "Tool 'nonexistent_tool' not found" ∧
    ToolManager.execute_tool { tools := [("t", c8t1)] } "t" []
      = Except.ok "one" := by
  have h1 := (claim_C4_amended { tools := [] } "nonexistent_tool" []).1 rfl
  have h2 := (claim_C4_amended { tools := [("t", c8t1)] } "t" []).2 c8t1 rfl
  exact ⟨h1, h2.trans rfl⟩
